import Mathlib

/-!
Shallow embedding of `src/crypto_analyzer.py` (class `OrderPointAnalyzer`).

Prices, indicator values and thresholds are modelled as exact rationals; a
pandas "NaN" entry (not yet computable value) is modelled as `none`, and any
comparison against a NaN entry is `false`, matching IEEE float comparison
semantics used by pandas.  The Bollinger bands involve a square root and are
therefore valued in `ℝ`.  A pandas `IndexError` (out-of-bounds `iloc`) is
modelled as `Except.error ()`.
-/

namespace CryptoAnalyzer

/-- Model of `series.iloc[-k]` on a pandas Series of length `n`: returns the
element at position `n - k`, and raises (`Except.error`) when `k = 0` or
`k > n`. -/
def ilocNeg {α : Type} (k : ℕ) (l : List α) : Except Unit α :=
  if h : 0 < k ∧ k ≤ l.length then
    .ok (l.get ⟨l.length - k, by omega⟩)
  else
    .error ()

/-- Build the length-`n` list `[g 0, g 1, ..., g (n-1)]`; used to model a
derived pandas column as a list indexed like the DataFrame. -/
def tabulate {α : Type} (n : ℕ) (g : ℕ → α) : List α :=
  (List.range n).map g

/-- The trailing window of width `w` ending at index `i` of a series, i.e.
the elements at indices `i-w+1 .. i`; `none` when fewer than `w` points are
available (pandas `rolling(window=w)` with default `min_periods`). -/
def windowAt (xs : List ℚ) (w i : ℕ) : Option (List ℚ) :=
  if w ≤ i + 1 ∧ i < xs.length then some ((xs.take (i + 1)).drop (i + 1 - w)) else none

/-- Model of `series.rolling(window=w).mean()` at index `i`. -/
def rolling_mean (xs : List ℚ) (w i : ℕ) : Option ℚ :=
  (windowAt xs w i).map (fun win => win.sum / (w : ℚ))

/-- Model of the square of `series.rolling(window=w).std()` at index `i`:
the sample variance of the trailing window (pandas uses `ddof = 1`). -/
def rolling_var (xs : List ℚ) (w i : ℕ) : Option ℚ :=
  (windowAt xs w i).map (fun win =>
    ((win.map (fun x => (x - win.sum / (w : ℚ)) ^ 2)).sum) / ((w : ℚ) - 1))

/-- Model of `close.diff()` at index `i`: `close[i] - close[i-1]`, NaN at 0. -/
def diffAt (closes : List ℚ) (i : ℕ) : Option ℚ :=
  if i = 0 then none
  else
    match closes[i]?, closes[i - 1]? with
    | some a, some b => some (a - b)
    | _, _ => none

/-- Model of `delta.where(delta > 0, 0)` from `calculate_rsi`: the positive
part of the diff series; the NaN at index 0 compares false and becomes 0. -/
def gainSeries (closes : List ℚ) : List ℚ :=
  tabulate closes.length (fun i =>
    match diffAt closes i with
    | some d => if 0 < d then d else 0
    | none => 0)

/-- Model of `-delta.where(delta < 0, 0)` from `calculate_rsi`: the magnitude
of the negative part of the diff series. -/
def lossSeries (closes : List ℚ) : List ℚ :=
  tabulate closes.length (fun i =>
    match diffAt closes i with
    | some d => if d < 0 then -d else 0
    | none => 0)

/-- RSI at index `i` from `calculate_rsi`: `100 - 100/(1 + gain/loss)` over
the trailing averages.  The source divides floats silently, so a window with
zero average loss gives `rs = inf` and RSI exactly 100 when the average gain
is positive, and `rs = NaN` (here `none`) when the average gain is also 0. -/
def rsiAt (closes : List ℚ) (period i : ℕ) : Option ℚ :=
  match rolling_mean (gainSeries closes) period i, rolling_mean (lossSeries closes) period i with
  | some g, some l =>
    if 0 < l then some (100 - 100 / (1 + g / l))
    else if 0 < g then some 100
    else none
  | _, _ => none

/-- The `rsi` column written by `calculate_rsi(period)`. -/
def calculate_rsi (closes : List ℚ) (period : ℕ) : List (Option ℚ) :=
  tabulate closes.length (rsiAt closes period)

/-- Exponential moving average recurrence `y = a*x + (1-a)*prev` continuing
from `prev`, as in pandas `ewm(span, adjust=False).mean()`. -/
def ewmaFrom (a : ℚ) : ℚ → List ℚ → List ℚ
  | _, [] => []
  | prev, x :: xs =>
    let y := a * x + (1 - a) * prev
    y :: ewmaFrom a y xs

/-- Model of `series.ewm(span=s, adjust=False).mean()`: smoothing factor
`2/(s+1)`, seeded with the first element. -/
def ewm_mean (s : ℕ) (xs : List ℚ) : List ℚ :=
  match xs with
  | [] => []
  | x :: rest => x :: ewmaFrom (2 / ((s : ℚ) + 1)) x rest

/-- The `macd` column from `calculate_macd`: `EMA(fast) - EMA(slow)`. -/
def macdLine (fast slow : ℕ) (closes : List ℚ) : List ℚ :=
  List.zipWith (fun a b => a - b) (ewm_mean fast closes) (ewm_mean slow closes)

/-- The `macd_signal` column from `calculate_macd`: EMA of the MACD line. -/
def macdSignalLine (fast slow sig : ℕ) (closes : List ℚ) : List ℚ :=
  ewm_mean sig (macdLine fast slow closes)

/-- The `macd_histogram` column from `calculate_macd`: MACD minus signal. -/
def macdHistogram (fast slow sig : ℕ) (closes : List ℚ) : List ℚ :=
  List.zipWith (fun a b => a - b) (macdLine fast slow closes) (macdSignalLine fast slow sig closes)

/-- Upper Bollinger band at index `i` from `calculate_bollinger_bands`:
`sma + std * k` with `std` the sample standard deviation of the window. -/
noncomputable def bbUpperAt (closes : List ℚ) (period : ℕ) (k : ℚ) (i : ℕ) : Option ℝ :=
  match rolling_mean closes period i, rolling_var closes period i with
  | some m, some v => some ((m : ℝ) + Real.sqrt (v : ℝ) * (k : ℝ))
  | _, _ => none

/-- Lower Bollinger band at index `i`: `sma - std * k`. -/
noncomputable def bbLowerAt (closes : List ℚ) (period : ℕ) (k : ℚ) (i : ℕ) : Option ℝ :=
  match rolling_mean closes period i, rolling_var closes period i with
  | some m, some v => some ((m : ℝ) - Real.sqrt (v : ℝ) * (k : ℝ))
  | _, _ => none

/-- The three columns written by `calculate_bollinger_bands(period, std_dev)`:
upper band, middle (`bb_middle = sma`), lower band. -/
noncomputable def calculate_bollinger_bands (closes : List ℚ) (period : ℕ) (k : ℚ) :
    List (Option ℝ) × List (Option ℚ) × List (Option ℝ) :=
  (tabulate closes.length (bbUpperAt closes period k),
   tabulate closes.length (rolling_mean closes period),
   tabulate closes.length (bbLowerAt closes period k))

/-- Model of the simplified ATR proxy in `calculate_entry_points`:
`high.rolling(14).mean() - low.rolling(14).mean()` at index `i`. -/
def atrAt (highs lows : List ℚ) (i : ℕ) : Option ℚ :=
  match rolling_mean highs 14 i, rolling_mean lows 14 i with
  | some h, some l => some (h - l)
  | _, _ => none

/-- Round-half-to-even on rationals, the rounding Python's `round` uses. -/
def roundHalfEven (q : ℚ) : ℤ :=
  if q - ⌊q⌋ < 1 / 2 then ⌊q⌋
  else if 1 / 2 < q - ⌊q⌋ then ⌊q⌋ + 1
  else if 2 ∣ ⌊q⌋ then ⌊q⌋ else ⌊q⌋ + 1

/-- Model of Python's `round(x, 2)`. -/
def round2 (q : ℚ) : ℚ :=
  (roundHalfEven (q * 100) : ℚ) / 100

/-- The dictionary returned by `calculate_entry_points`; the entry fields are
NaN (`none`) when the ATR proxy is undefined. -/
structure EntryPlan where
  current_price : ℚ
  entry_low : Option ℚ
  entry_high : Option ℚ
  stop_loss : Option ℚ
  take_profit_1 : Option ℚ
  take_profit_2 : Option ℚ
  risk_reward_ratio : ℚ
deriving Repr, DecidableEq

/-- Model of `calculate_entry_points` over the high/low/close columns. -/
def calculate_entry_points (highs lows closes : List ℚ) : Except Unit EntryPlan :=
  match ilocNeg 1 closes with
  | .error e => .error e
  | .ok currentPrice =>
    let currentAtr := atrAt highs lows (closes.length - 1)
    let entryLow := currentAtr.map (fun a => currentPrice - a * (1 / 2))
    let entryHigh := currentAtr.map (fun a => currentPrice + a * (1 / 2))
    let stopLoss := currentAtr.map (fun a => currentPrice - a * 2)
    let risk := stopLoss.map (fun sl => currentPrice - sl)
    let tp1 := risk.map (fun r => currentPrice + r * 2)
    let tp2 := risk.map (fun r => currentPrice + r * 3)
    .ok { current_price := round2 currentPrice
          entry_low := entryLow.map round2
          entry_high := entryHigh.map round2
          stop_loss := stopLoss.map round2
          take_profit_1 := tp1.map round2
          take_profit_2 := tp2.map round2
          risk_reward_ratio := 3 }

/-- Support candidates from `find_support_resistance`: for each index `i` in
`range(window, n - window)`, keep `low[i]` when it equals the minimum of the
half-open slice `low[i-window : i+window]`; the minimum of an empty slice is
NaN and compares false. -/
def supportCandidates (lows : List ℚ) (w : ℕ) : List ℚ :=
  (List.range' w (lows.length - w - w)).filterMap (fun i =>
    match lows[i]? with
    | some v => if ((lows.drop (i - w)).take (w + w)).min? = some v then some v else none
    | none => none)

/-- Resistance candidates: `high[i]` when it equals the maximum of the
symmetric slice. -/
def resistanceCandidates (highs : List ℚ) (w : ℕ) : List ℚ :=
  (List.range' w (highs.length - w - w)).filterMap (fun i =>
    match highs[i]? with
    | some v => if ((highs.drop (i - w)).take (w + w)).max? = some v then some v else none
    | none => none)

/-- Ascending sort, modelling Python's `sorted`. -/
def sortedAsc (xs : List ℚ) : List ℚ :=
  List.insertionSort (fun a b => a ≤ b) xs

/-- Model of `find_support_resistance(window)`: deduplicate the candidate
values (`set` semantics), sort, and keep 3 — support descending
(`sorted(..., reverse=True)[:3]`), resistance ascending (`sorted(...)[:3]`). -/
def find_support_resistance (highs lows : List ℚ) (w : ℕ) : List ℚ × List ℚ :=
  ((sortedAsc (supportCandidates lows w).dedup).reverse.take 3,
   (sortedAsc (resistanceCandidates highs w).dedup).take 3)

/-- NaN-aware `<` on column entries: false when either side is NaN. -/
def optLt (a b : Option ℚ) : Bool :=
  match a, b with
  | some x, some y => decide (x < y)
  | _, _ => false

/-- NaN-aware `>` on column entries: false when either side is NaN. -/
def optGt (a b : Option ℚ) : Bool :=
  match a, b with
  | some x, some y => decide (y < x)
  | _, _ => false

/-- Model of `detect_divergence` on the `close` and `rsi` columns of the
enriched DataFrame (the `'rsi' in columns` guard has already passed).  It
compares `iloc[-1]` with `iloc[-20]`, so it raises on fewer than 20 rows. -/
def detect_divergence (close : List ℚ) (rsi : List (Option ℚ)) : Except Unit (Bool × Bool) :=
  match ilocNeg 1 close, ilocNeg 20 close, ilocNeg 1 rsi, ilocNeg 20 rsi with
  | .ok cLast, .ok c20, .ok rLast, .ok r20 =>
    .ok (decide (cLast < c20) && optGt rLast r20,
         decide (c20 < cLast) && optLt rLast r20)
  | .error e, _, _, _ => .error e
  | _, .error e, _, _ => .error e
  | _, _, .error e, _ => .error e
  | _, _, _, .error e => .error e

/-- Modelled from the spec: the claimed divergence rule of §4.3, comparing the
latest close/RSI to the close/RSI exactly 20 candles earlier (index `n-1-20`),
available only when there are at least 21 candles and the RSI is defined at
both indices; the claimed bullish flag.  This definition follows the claim's
words and is compared against `detect_divergence`, which is the code. -/
def specBullishDivergence (close : List ℚ) (rsi : List (Option ℚ)) : Option Bool :=
  if 21 ≤ close.length then
    match close[close.length - 1]?, close[close.length - 21]?,
          rsi[close.length - 1]?, rsi[close.length - 21]? with
    | some cL, some cPast, some (some rL), some (some rPast) =>
      some (decide (cL < cPast) && decide (rPast < rL))
    | _, _, _, _ => none
  else none

/-- The enriched DataFrame as seen by `generate_signal`: the `close` column
plus the derived columns written by `calculate_rsi`, `calculate_macd` and
`calculate_bollinger_bands`.  In a DataFrame all columns share one index, so
all six lists have the same length. -/
structure Frame where
  close : List ℚ
  rsi : List (Option ℚ)
  macd : List ℚ
  macd_signal : List ℚ
  bb_upper : List (Option ℝ)
  bb_lower : List (Option ℝ)

/-- The dictionary returned by `generate_signal`. -/
structure Signal where
  action : String
  confidence : ℕ
  signals : List String
deriving Repr, DecidableEq

/-- The RSI scoring rule of `generate_signal`: oversold below 30 (+20),
overbought above 70 (-20); a NaN RSI compares false on both sides. -/
def rsiContribution (r : Option ℚ) : ℤ × List String :=
  match r with
  | none => (0, [])
  | some v =>
    if v < 30 then (20, ["RSI oversold (買いシグナル)"])
    else if 70 < v then (-20, ["RSI overbought (売りシグナル)"])
    else (0, [])

/-- The MACD crossover rule of `generate_signal`: the previous-row values are
only read inside the branch selected by the latest-row comparison. -/
def macdCrossStep (f : Frame) (mLast sLast : ℚ) : Except Unit (ℤ × List String) :=
  if sLast < mLast then
    match ilocNeg 2 f.macd, ilocNeg 2 f.macd_signal with
    | .ok mPrev, .ok sPrev =>
      .ok (if mPrev ≤ sPrev then ((25 : ℤ), ["MACD bullish crossover (買いシグナル)"]) else (0, []))
    | .error e, _ => .error e
    | _, .error e => .error e
  else if mLast < sLast then
    match ilocNeg 2 f.macd, ilocNeg 2 f.macd_signal with
    | .ok mPrev, .ok sPrev =>
      .ok (if sPrev ≤ mPrev then ((-25 : ℤ), ["MACD bearish crossover (売りシグナル)"]) else (0, []))
    | .error e, _ => .error e
    | _, .error e => .error e
  else .ok ((0 : ℤ), [])

/-- The Bollinger rule of `generate_signal`: price below the lower band (+15),
else price above the upper band (-15); a NaN band compares false. -/
noncomputable def bbContribution (c : ℚ) (lo hi : Option ℝ) : ℤ × List String :=
  match lo with
  | some lv =>
    if (c : ℝ) < lv then (15, ["Price below lower Bollinger Band (買いシグナル)"])
    else
      match hi with
      | some hv => if hv < (c : ℝ) then (-15, ["Price above upper Bollinger Band (売りシグナル)"]) else (0, [])
      | none => (0, [])
  | none =>
    match hi with
    | some hv => if hv < (c : ℝ) then (-15, ["Price above upper Bollinger Band (売りシグナル)"]) else (0, [])
    | none => (0, [])

/-- The divergence rule of `generate_signal`. -/
def divContribution (d : Bool × Bool) : ℤ × List String :=
  if d.1 then (20, ["Bullish divergence detected (買いシグナル)"])
  else if d.2 then (-20, ["Bearish divergence detected (売りシグナル)"])
  else (0, [])

/-- The signed score and appended reasons accumulated by `generate_signal`
before classification, rule by rule in source order. -/
noncomputable def scoreReasons (f : Frame) : Except Unit (ℤ × List String) :=
  match ilocNeg 1 f.rsi with
  | .error e => .error e
  | .ok currentRsi =>
    let p1 := rsiContribution currentRsi
    match ilocNeg 1 f.macd, ilocNeg 1 f.macd_signal with
    | .ok mLast, .ok sLast =>
      match macdCrossStep f mLast sLast with
      | .error e => .error e
      | .ok p2 =>
        match ilocNeg 1 f.close, ilocNeg 1 f.bb_lower, ilocNeg 1 f.bb_upper with
        | .ok currentPrice, .ok lo, .ok hi =>
          let p3 := bbContribution currentPrice lo hi
          match detect_divergence f.close f.rsi with
          | .error e => .error e
          | .ok dv =>
            let p4 := divContribution dv
            .ok (p1.1 + p2.1 + p3.1 + p4.1, p1.2 ++ p2.2 ++ p3.2 ++ p4.2)
        | .error e, _, _ => .error e
        | _, .error e, _ => .error e
        | _, _, .error e => .error e
    | .error e, _ => .error e
    | _, .error e => .error e

/-- The final classification of the signed score in `generate_signal`. -/
def classifyAction (confidence : ℤ) : String :=
  if 40 < confidence then "STRONG BUY 🟢"
  else if 20 < confidence then "BUY 🟢"
  else if confidence < -40 then "STRONG SELL 🔴"
  else if confidence < -20 then "SELL 🔴"
  else "HOLD ⚪"

/-- Model of `generate_signal`: score the four rules, classify, and report the
absolute value of the signed score as the confidence. -/
noncomputable def generate_signal (f : Frame) : Except Unit Signal :=
  match scoreReasons f with
  | .error e => .error e
  | .ok (confidence, signals) => .ok ⟨classifyAction confidence, confidence.natAbs, signals⟩

/-- The enrichment step of `analyze`: compute the derived columns with the
source's default parameters (RSI 14; MACD 12/26/9; Bollinger 20/2). -/
noncomputable def enrich (closes : List ℚ) : Frame :=
  { close := closes
    rsi := calculate_rsi closes 14
    macd := macdLine 12 26 closes
    macd_signal := macdSignalLine 12 26 9 closes
    bb_upper := tabulate closes.length (bbUpperAt closes 20 2)
    bb_lower := tabulate closes.length (bbLowerAt closes 20 2) }

/-! Helper lemmas about the windowing primitives. -/

theorem tabulate_length {α : Type} (n : ℕ) (g : ℕ → α) : (tabulate n g).length = n := by
  simp [tabulate]

theorem tabulate_getElem? {α : Type} (n : ℕ) (g : ℕ → α) (i : ℕ) (h : i < n) :
    (tabulate n g)[i]? = some (g i) := by
  simp [tabulate, List.getElem?_map, List.getElem?_range h]

theorem ilocNeg_tabulate {α : Type} (k n : ℕ) (g : ℕ → α) (h1 : 0 < k) (h2 : k ≤ n) :
    ilocNeg k (tabulate n g) = .ok (g (n - k)) := by
  have hlen : (tabulate n g).length = n := tabulate_length n g
  unfold ilocNeg
  rw [dif_pos (by omega)]
  congr 1
  have hidx : (tabulate n g).length - k < (tabulate n g).length := by omega
  rw [List.get_eq_getElem]
  have := tabulate_getElem? n g ((tabulate n g).length - k) (by omega)
  rw [List.getElem?_eq_getElem hidx] at this
  have hval := Option.some.inj this
  rw [hval, hlen]

theorem ilocNeg_error {α : Type} (k : ℕ) (l : List α) (h : ¬(0 < k ∧ k ≤ l.length)) :
    ilocNeg k l = .error () := by
  unfold ilocNeg
  rw [dif_neg h]

theorem windowAt_none (xs : List ℚ) (w i : ℕ) (h : ¬(w ≤ i + 1 ∧ i < xs.length)) :
    windowAt xs w i = none := by
  unfold windowAt
  rw [if_neg h]

theorem windowAt_mem (xs win : List ℚ) (w i : ℕ) (h : windowAt xs w i = some win) :
    ∀ x ∈ win, x ∈ xs := by
  unfold windowAt at h
  split_ifs at h with hc
  intro x hx
  have hwin := Option.some.inj h
  rw [← hwin] at hx
  have hsub : ((xs.take (i + 1)).drop (i + 1 - w)).Sublist xs :=
    (List.drop_sublist _ _).trans (List.take_sublist _ _)
  exact hsub.subset hx

theorem rolling_mean_nonneg (xs : List ℚ) (w i : ℕ) (m : ℚ)
    (hxs : ∀ x ∈ xs, 0 ≤ x) (h : rolling_mean xs w i = some m) : 0 ≤ m := by
  unfold rolling_mean at h
  cases hwin : windowAt xs w i with
  | none => rw [hwin] at h; cases h
  | some win =>
    rw [hwin] at h
    have hm := Option.some.inj h
    rw [← hm]
    apply div_nonneg
    · exact List.sum_nonneg (fun x hx => hxs x (windowAt_mem xs win w i hwin x hx))
    · exact Nat.cast_nonneg w

theorem gainSeries_nonneg (closes : List ℚ) : ∀ x ∈ gainSeries closes, 0 ≤ x := by
  intro x hx
  simp only [gainSeries, tabulate, List.mem_map] at hx
  obtain ⟨i, _, hxi⟩ := hx
  rw [← hxi]
  cases diffAt closes i with
  | none => simp
  | some d =>
    simp only
    split_ifs with hd
    · exact le_of_lt hd
    · exact le_refl 0

theorem lossSeries_nonneg (closes : List ℚ) : ∀ x ∈ lossSeries closes, 0 ≤ x := by
  intro x hx
  simp only [lossSeries, tabulate, List.mem_map] at hx
  obtain ⟨i, _, hxi⟩ := hx
  rw [← hxi]
  cases diffAt closes i with
  | none => simp
  | some d =>
    simp only
    split_ifs with hd
    · linarith
    · exact le_refl 0

theorem rsiAt_eval (closes : List ℚ) (period i : ℕ) (g l : ℚ)
    (hg : rolling_mean (gainSeries closes) period i = some g)
    (hl : rolling_mean (lossSeries closes) period i = some l) :
    rsiAt closes period i =
      if 0 < l then some (100 - 100 / (1 + g / l))
      else if 0 < g then some 100 else none := by
  unfold rsiAt
  rw [hg, hl]

theorem rsiAt_gain_none (closes : List ℚ) (period i : ℕ)
    (hg : rolling_mean (gainSeries closes) period i = none) :
    rsiAt closes period i = none := by
  unfold rsiAt
  rw [hg]

theorem rsiAt_loss_none (closes : List ℚ) (period i : ℕ)
    (hl : rolling_mean (lossSeries closes) period i = none) :
    rsiAt closes period i = none := by
  unfold rsiAt
  rw [hl]
  cases rolling_mean (gainSeries closes) period i <;> rfl

/-- C5: for every series with at least `period` candles, every defined RSI
value computed by `calculate_rsi` lies within `[0, 100]` inclusive. -/
theorem rsi_bounds (closes : List ℚ) (period i : ℕ) (v : ℚ)
    (hlen : period ≤ closes.length) (h : rsiAt closes period i = some v) :
    0 ≤ v ∧ v ≤ 100 := by
  cases hg : rolling_mean (gainSeries closes) period i with
  | none => rw [rsiAt_gain_none closes period i hg] at h; cases h
  | some g =>
    cases hl : rolling_mean (lossSeries closes) period i with
    | none => rw [rsiAt_loss_none closes period i hl] at h; cases h
    | some l =>
      rw [rsiAt_eval closes period i g l hg hl] at h
      have hg0 : 0 ≤ g := rolling_mean_nonneg _ _ _ _ (gainSeries_nonneg closes) hg
      have hl0 : 0 ≤ l := rolling_mean_nonneg _ _ _ _ (lossSeries_nonneg closes) hl
      by_cases hlpos : 0 < l
      · rw [if_pos hlpos] at h
        have hv := Option.some.inj h
        have hrs : 0 ≤ g / l := div_nonneg hg0 hl0
        have hden : (0 : ℚ) < 1 + g / l := by linarith
        constructor
        · have hle : 100 / (1 + g / l) ≤ 100 / 1 :=
            div_le_div_of_nonneg_left (by norm_num) (by norm_num) (by linarith)
          rw [← hv]
          rw [div_one] at hle
          linarith
        · have hpos : 0 < 100 / (1 + g / l) := by positivity
          rw [← hv]
          linarith
      · rw [if_neg hlpos] at h
        split_ifs at h with hgpos
        have hv := Option.some.inj h
        rw [← hv]
        norm_num

/-- Witness for C5 at a strictly increasing 14-candle series, whose RSI at
the first full window saturates at 100. -/
theorem rsi_bounds_witness :
    rsiAt [0, 1, 2, 3, 4, 5, 6, 7, 8, 9, 10, 11, 12, 13] 14 13 = some 100 ∧
      (0 ≤ (100 : ℚ) ∧ (100 : ℚ) ≤ 100) :=
  ⟨by with_unfolding_all rfl,
   rsi_bounds [0, 1, 2, 3, 4, 5, 6, 7, 8, 9, 10, 11, 12, 13] 14 13 100 (by decide)
     (by with_unfolding_all rfl)⟩

/-- C9: for a full RSI window with zero average loss, a positive average gain
gives RSI exactly 100, while a zero average gain (all closes in the window
equal) leaves the RSI undefined, and the aggregator's RSI rule contributes
nothing on an undefined RSI. -/
theorem rsi_zero_loss (closes : List ℚ) (i : ℕ)
    (hl : rolling_mean (lossSeries closes) 14 i = some 0) :
    (∀ g, rolling_mean (gainSeries closes) 14 i = some g → 0 < g →
        rsiAt closes 14 i = some 100) ∧
      (rolling_mean (gainSeries closes) 14 i = some 0 →
        rsiAt closes 14 i = none ∧ rsiContribution none = (0, [])) := by
  constructor
  · intro g hg hgpos
    rw [rsiAt_eval closes 14 i g 0 hg hl, if_neg (by norm_num), if_pos hgpos]
  · intro hg
    refine ⟨?_, rfl⟩
    rw [rsiAt_eval closes 14 i 0 0 hg hl, if_neg (by norm_num), if_neg (by norm_num)]

/-- Witness for C9 at a constant 14-candle series: zero loss and zero gain,
so the RSI is NaN and the RSI scoring rule does not fire. -/
theorem rsi_zero_loss_witness :
    rsiAt (List.replicate 14 (5 : ℚ)) 14 13 = none ∧
      rsiContribution none = (0, []) :=
  (rsi_zero_loss (List.replicate 14 (5 : ℚ)) 13 (by with_unfolding_all rfl)).2
    (by with_unfolding_all rfl)

/-- C8: wherever the MACD line and the signal line are defined, the histogram
column equals their difference exactly, and the MACD line itself is the
difference of the fast and slow EMAs. -/
theorem macd_histogram_eq (closes : List ℚ) (fast slow sig i : ℕ) (m s : ℚ)
    (hm : (macdLine fast slow closes)[i]? = some m)
    (hs : (macdSignalLine fast slow sig closes)[i]? = some s) :
    (macdHistogram fast slow sig closes)[i]? = some (m - s) ∧
      ∀ a b, (ewm_mean fast closes)[i]? = some a → (ewm_mean slow closes)[i]? = some b →
        m = a - b := by
  constructor
  · unfold macdHistogram
    rw [List.getElem?_zipWith, hm, hs]
  · intro a b ha hb
    unfold macdLine at hm
    rw [List.getElem?_zipWith, ha, hb] at hm
    have hm2 : some (a - b) = some m := hm
    exact (Option.some.inj hm2).symm

/-- Witness for C8 on a constant 3-candle series, where MACD, signal and
histogram are all 0 at the last index. -/
theorem macd_histogram_eq_witness :
    (macdLine 12 26 [1, 1, 1])[2]? = some 0 ∧
      (macdSignalLine 12 26 9 [1, 1, 1])[2]? = some 0 ∧
        (macdHistogram 12 26 9 [1, 1, 1])[2]? = some (0 - 0) :=
  ⟨by with_unfolding_all rfl, by with_unfolding_all rfl,
   (macd_histogram_eq [1, 1, 1] 12 26 9 2 0 0 (by with_unfolding_all rfl)
       (by with_unfolding_all rfl)).1⟩

/-- C7: at every index where upper band, middle and lower band are all
defined, `lower ≤ middle ≤ upper`, for any nonnegative band multiplier. -/
theorem bollinger_band_order (closes : List ℚ) (period : ℕ) (k : ℚ) (i : ℕ)
    (u l : ℝ) (m : ℚ) (hk : 0 ≤ k)
    (hu : bbUpperAt closes period k i = some u)
    (hm : rolling_mean closes period i = some m)
    (hl : bbLowerAt closes period k i = some l) :
    l ≤ (m : ℝ) ∧ (m : ℝ) ≤ u := by
  unfold bbUpperAt at hu
  unfold bbLowerAt at hl
  rw [hm] at hu hl
  cases hv : rolling_var closes period i with
  | none =>
    rw [hv] at hu
    cases hu
  | some v =>
    rw [hv] at hu hl
    have hu2 : some ((m : ℝ) + Real.sqrt (v : ℝ) * (k : ℝ)) = some u := hu
    have hl2 : some ((m : ℝ) - Real.sqrt (v : ℝ) * (k : ℝ)) = some l := hl
    have hru := Option.some.inj hu2
    have hrl := Option.some.inj hl2
    have hnn : 0 ≤ Real.sqrt (v : ℝ) * (k : ℝ) :=
      mul_nonneg (Real.sqrt_nonneg _) (by exact_mod_cast hk)
    constructor
    · rw [← hrl]; linarith
    · rw [← hru]; linarith

/-- Witness for C7 on a constant 20-candle series at the first full window:
zero variance, so all three band values coincide at 100. -/
theorem bollinger_band_order_witness :
    bbLowerAt (List.replicate 20 (100 : ℚ)) 20 2 19 = some 100 ∧
      rolling_mean (List.replicate 20 (100 : ℚ)) 20 19 = some 100 ∧
        bbUpperAt (List.replicate 20 (100 : ℚ)) 20 2 19 = some 100 ∧
          ((100 : ℝ) ≤ ((100 : ℚ) : ℝ) ∧ ((100 : ℚ) : ℝ) ≤ (100 : ℝ)) := by
  have hmean : rolling_mean (List.replicate 20 (100 : ℚ)) 20 19 = some 100 := by
    with_unfolding_all rfl
  have hvar : rolling_var (List.replicate 20 (100 : ℚ)) 20 19 = some 0 := by
    with_unfolding_all rfl
  have hu : bbUpperAt (List.replicate 20 (100 : ℚ)) 20 2 19 = some 100 := by
    unfold bbUpperAt
    rw [hmean, hvar]
    norm_num [Real.sqrt_zero]
  have hl : bbLowerAt (List.replicate 20 (100 : ℚ)) 20 2 19 = some 100 := by
    unfold bbLowerAt
    rw [hmean, hvar]
    norm_num [Real.sqrt_zero]
  exact ⟨hl, hmean, hu,
    bollinger_band_order (List.replicate 20 (100 : ℚ)) 20 2 19 100 100 100 (by norm_num)
      hu hmean hl⟩

theorem rolling_mean_none (xs : List ℚ) (w i : ℕ) (h : ¬(w ≤ i + 1 ∧ i < xs.length)) :
    rolling_mean xs w i = none := by
  unfold rolling_mean
  rw [windowAt_none xs w i h]
  rfl

theorem ilocNeg_ok {α : Type} (k : ℕ) (l : List α) (h : 0 < k ∧ k ≤ l.length) :
    ilocNeg k l = .ok (l.get ⟨l.length - k, by omega⟩) := by
  unfold ilocNeg
  rw [dif_pos h]

theorem optGt_none_right (a : Option ℚ) : optGt a none = false := by
  cases a <;> rfl

theorem optLt_none_right (a : Option ℚ) : optLt a none = false := by
  cases a <;> rfl

/-- C2 (amended): `detect_divergence` compares `iloc[-1]` with `iloc[-20]`
(19 candles earlier).  On exactly 20 candles with the pipeline's 14-period
RSI column, the compared RSI entry (index 0) is NaN, so it reports no
divergence without raising; on fewer than 20 candles it raises an index
error (here `Except.error`). -/
theorem detect_divergence_amended :
    (∀ closes : List ℚ, closes.length = 20 →
        detect_divergence closes (calculate_rsi closes 14) = .ok (false, false)) ∧
      ∀ (close : List ℚ) (rsi : List (Option ℚ)), close.length < 20 →
        detect_divergence close rsi = .error () := by
  constructor
  · intro closes h
    unfold detect_divergence
    rw [ilocNeg_ok 1 closes ⟨by omega, by omega⟩, ilocNeg_ok 20 closes ⟨by omega, by omega⟩]
    unfold calculate_rsi
    rw [ilocNeg_tabulate 1 closes.length (rsiAt closes 14) (by omega) (by omega),
      ilocNeg_tabulate 20 closes.length (rsiAt closes 14) (by omega) (by omega)]
    have hrsi0 : rsiAt closes 14 (closes.length - 20) = none :=
      rsiAt_gain_none closes 14 (closes.length - 20)
        (rolling_mean_none _ 14 (closes.length - 20) (by omega))
    rw [hrsi0]
    simp [optGt_none_right, optLt_none_right]
  · intro close rsi h
    unfold detect_divergence
    rw [ilocNeg_error 20 close (by omega)]
    cases h1 : ilocNeg 1 close <;> cases h2 : ilocNeg 1 rsi <;>
      cases h3 : ilocNeg 20 rsi <;> rfl

/-- Witness for the amended C2: a flat 20-candle series reports no divergence
without error, and a 19-candle series raises. -/
theorem detect_divergence_amended_witness :
    detect_divergence (List.replicate 20 (2 : ℚ))
        (calculate_rsi (List.replicate 20 (2 : ℚ)) 14) = .ok (false, false) ∧
      detect_divergence (List.replicate 19 (1 : ℚ))
          (calculate_rsi (List.replicate 19 (1 : ℚ)) 14) = .error () :=
  ⟨detect_divergence_amended.1 (List.replicate 20 (2 : ℚ)) (by simp),
   detect_divergence_amended.2 (List.replicate 19 (1 : ℚ))
     (calculate_rsi (List.replicate 19 (1 : ℚ)) 14) (by simp)⟩

/-- Counterexample to C2 as stated: a 19-candle series (RSI column present)
makes `detect_divergence` raise rather than report no divergence, and on a
21-candle series where the claimed comparison — exactly 20 candles earlier,
here `specBullishDivergence` — sees a bullish divergence, the code (which
compares only 19 candles back) reports none. -/
theorem detect_divergence_claim_counterexample :
    detect_divergence (List.replicate 19 (1 : ℚ))
        (calculate_rsi (List.replicate 19 (1 : ℚ)) 14) = .error () ∧
      detect_divergence ([300, 50] ++ List.replicate 18 (75 : ℚ) ++ [100])
          ([some 10, some 10] ++ List.replicate 18 (none : Option ℚ) ++ [some 50]) =
        .ok (false, false) ∧
        specBullishDivergence ([300, 50] ++ List.replicate 18 (75 : ℚ) ++ [100])
            ([some 10, some 10] ++ List.replicate 18 (none : Option ℚ) ++ [some 50]) =
          some true :=
  ⟨by with_unfolding_all rfl, by with_unfolding_all rfl, by with_unfolding_all rfl⟩

/-- C4: with a defined latest price `P` and defined ATR proxy `A`, the entry
planner returns `P ± 0.5A` as the entry range, `P - 2A` as the stop loss,
`P + 2(P - stopLoss)` and `P + 3(P - stopLoss)` as the take profits, each
rounded to 2 decimals after full-precision computation, and the constant 3.0
as the risk/reward ratio. -/
theorem calculate_entry_points_spec (highs lows closes : List ℚ) (P A : ℚ) (ep : EntryPlan)
    (hP : ilocNeg 1 closes = .ok P)
    (hA : atrAt highs lows (closes.length - 1) = some A)
    (h : calculate_entry_points highs lows closes = .ok ep) :
    ep.current_price = round2 P ∧
      ep.entry_low = some (round2 (P - A / 2)) ∧
        ep.entry_high = some (round2 (P + A / 2)) ∧
          ep.stop_loss = some (round2 (P - 2 * A)) ∧
            ep.take_profit_1 = some (round2 (P + 2 * (P - (P - 2 * A)))) ∧
              ep.take_profit_2 = some (round2 (P + 3 * (P - (P - 2 * A)))) ∧
                ep.risk_reward_ratio = 3 := by
  unfold calculate_entry_points at h
  rw [hP] at h
  injection h with h2
  rw [← h2]
  simp only [hA, Option.map_some']
  refine ⟨trivial, ?_, ?_, ?_, ?_, ?_, trivial⟩ <;> · congr 1; ring_nf

/-- Witness for C4 at `P = 100`, `A = 10`: entry range 95..105, stop loss 80,
take profits 140 and 160. -/
theorem calculate_entry_points_spec_witness :
    calculate_entry_points (List.replicate 14 (110 : ℚ)) (List.replicate 14 (100 : ℚ))
        (List.replicate 14 (100 : ℚ)) =
      .ok ⟨100, some 95, some 105, some 80, some 140, some 160, 3⟩ ∧
      ((⟨100, some 95, some 105, some 80, some 140, some 160, 3⟩ : EntryPlan).current_price =
          round2 100 ∧
        (⟨100, some 95, some 105, some 80, some 140, some 160, 3⟩ : EntryPlan).entry_low =
            some (round2 (100 - 10 / 2)) ∧
          (⟨100, some 95, some 105, some 80, some 140, some 160, 3⟩ : EntryPlan).entry_high =
              some (round2 (100 + 10 / 2)) ∧
            (⟨100, some 95, some 105, some 80, some 140, some 160, 3⟩ : EntryPlan).stop_loss =
                some (round2 (100 - 2 * 10)) ∧
              (⟨100, some 95, some 105, some 80, some 140, some 160, 3⟩ :
                    EntryPlan).take_profit_1 =
                  some (round2 (100 + 2 * (100 - (100 - 2 * 10)))) ∧
                (⟨100, some 95, some 105, some 80, some 140, some 160, 3⟩ :
                      EntryPlan).take_profit_2 =
                    some (round2 (100 + 3 * (100 - (100 - 2 * 10)))) ∧
                  (⟨100, some 95, some 105, some 80, some 140, some 160, 3⟩ :
                        EntryPlan).risk_reward_ratio = 3) :=
  ⟨by with_unfolding_all rfl,
   calculate_entry_points_spec (List.replicate 14 (110 : ℚ)) (List.replicate 14 (100 : ℚ))
     (List.replicate 14 (100 : ℚ)) 100 10 ⟨100, some 95, some 105, some 80, some 140, some 160, 3⟩
     (by with_unfolding_all rfl) (by with_unfolding_all rfl) (by with_unfolding_all rfl)⟩

/-! Helper lemmas about the four scoring rules of `generate_signal`. -/

theorem rsiContribution_fst (r : Option ℚ) :
    (rsiContribution r).1 = 0 ∨ (rsiContribution r).1 = 20 ∨ (rsiContribution r).1 = -20 := by
  cases r with
  | none => left; rfl
  | some v =>
    unfold rsiContribution
    dsimp only
    split_ifs <;> simp

theorem bbContribution_fst (c : ℚ) (lo hi : Option ℝ) :
    (bbContribution c lo hi).1 = 0 ∨ (bbContribution c lo hi).1 = 15 ∨
      (bbContribution c lo hi).1 = -15 := by
  unfold bbContribution
  cases lo <;> cases hi <;> dsimp only <;> first
  | (split_ifs <;> simp)
  | simp

theorem divContribution_fst (d : Bool × Bool) :
    (divContribution d).1 = 0 ∨ (divContribution d).1 = 20 ∨ (divContribution d).1 = -20 := by
  unfold divContribution
  split_ifs <;> simp

theorem macdCrossStep_fst (f : Frame) (mL sL : ℚ) (p : ℤ × List String)
    (h : macdCrossStep f mL sL = .ok p) :
    p.1 = 0 ∨ p.1 = 25 ∨ p.1 = -25 := by
  unfold macdCrossStep at h
  split_ifs at h with h1 h2
  · cases hm : ilocNeg 2 f.macd with
    | error e =>
      cases hs : ilocNeg 2 f.macd_signal <;> rw [hm, hs] at h <;> exact absurd h (by simp)
    | ok mP =>
      cases hs : ilocNeg 2 f.macd_signal with
      | error e => rw [hm, hs] at h; exact absurd h (by simp)
      | ok sP =>
        rw [hm, hs] at h
        have h4 := Except.ok.inj h
        rw [← h4]
        split_ifs <;> simp
  · cases hm : ilocNeg 2 f.macd with
    | error e =>
      cases hs : ilocNeg 2 f.macd_signal <;> rw [hm, hs] at h <;> exact absurd h (by simp)
    | ok mP =>
      cases hs : ilocNeg 2 f.macd_signal with
      | error e => rw [hm, hs] at h; exact absurd h (by simp)
      | ok sP =>
        rw [hm, hs] at h
        have h4 := Except.ok.inj h
        rw [← h4]
        split_ifs <;> simp
  · have h4 := Except.ok.inj h
    rw [← h4]
    simp

theorem scoreReasons_bound (f : Frame) (c : ℤ) (sl : List String)
    (h : scoreReasons f = .ok (c, sl)) :
    -80 ≤ c ∧ c ≤ 80 ∧ (5 : ℤ) ∣ c := by
  unfold scoreReasons at h
  cases h1 : ilocNeg 1 f.rsi with
  | error e => rw [h1] at h; exact absurd h (by simp)
  | ok r =>
    rw [h1] at h
    cases h2 : ilocNeg 1 f.macd with
    | error e =>
      cases h3 : ilocNeg 1 f.macd_signal <;> rw [h2, h3] at h <;> exact absurd h (by simp)
    | ok mLast =>
      cases h3 : ilocNeg 1 f.macd_signal with
      | error e => rw [h2, h3] at h; exact absurd h (by simp)
      | ok sLast =>
        rw [h2, h3] at h
        dsimp only at h
        cases h4 : macdCrossStep f mLast sLast with
        | error e => rw [h4] at h; exact absurd h (by simp)
        | ok p2 =>
          rw [h4] at h
          cases h5 : ilocNeg 1 f.close with
          | error e =>
            cases h6 : ilocNeg 1 f.bb_lower <;> cases h7 : ilocNeg 1 f.bb_upper <;>
              rw [h5, h6, h7] at h <;> exact absurd h (by simp)
          | ok cp =>
            cases h6 : ilocNeg 1 f.bb_lower with
            | error e =>
              cases h7 : ilocNeg 1 f.bb_upper <;> rw [h5, h6, h7] at h <;>
                exact absurd h (by simp)
            | ok lo =>
              cases h7 : ilocNeg 1 f.bb_upper with
              | error e => rw [h5, h6, h7] at h; exact absurd h (by simp)
              | ok hi =>
                rw [h5, h6, h7] at h
                dsimp only at h
                cases h8 : detect_divergence f.close f.rsi with
                | error e => rw [h8] at h; exact absurd h (by simp)
                | ok dv =>
                  rw [h8] at h
                  have h10 := Except.ok.inj h
                  have hc := congrArg Prod.fst h10
                  dsimp only at hc
                  rw [← hc]
                  rcases rsiContribution_fst r with ha | ha | ha <;>
                    rcases macdCrossStep_fst f mLast sLast p2 h4 with hb | hb | hb <;>
                      rcases bbContribution_fst cp lo hi with hb2 | hb2 | hb2 <;>
                        rcases divContribution_fst dv with hd | hd | hd <;>
                          rw [ha, hb, hb2, hd] <;> decide

/-- C10: whenever `generate_signal` produces a signal, the signed score behind
it is a multiple of 5 in `[-80, 80]` (one bounded contribution per rule), and
the reported confidence is its absolute value, hence at most 80. -/
theorem confidence_le_80 (f : Frame) (s : Signal) (h : generate_signal f = .ok s) :
    ∃ c sl, scoreReasons f = .ok (c, sl) ∧ s.confidence = c.natAbs ∧
      -80 ≤ c ∧ c ≤ 80 ∧ (5 : ℤ) ∣ c ∧ s.confidence ≤ 80 := by
  unfold generate_signal at h
  cases hsr : scoreReasons f with
  | error e => rw [hsr] at h; exact absurd h (by simp)
  | ok p =>
    obtain ⟨c, sl⟩ := p
    rw [hsr] at h
    have h2 : Except.ok (⟨classifyAction c, c.natAbs, sl⟩ : Signal) =
        (Except.ok s : Except Unit Signal) := h
    have h3 := Except.ok.inj h2
    obtain ⟨hb1, hb2, hb3⟩ := scoreReasons_bound f c sl hsr
    refine ⟨c, sl, rfl, ?_, hb1, hb2, hb3, ?_⟩
    · rw [← h3]
    · rw [← h3]
      show c.natAbs ≤ 80
      omega

theorem rsiContribution_oversold : rsiContribution (some 25) =
    (20, ["RSI oversold (買いシグナル)"]) := by
  unfold rsiContribution
  exact if_pos (by norm_num)

/-- C1: for any enriched frame whose latest RSI is 25, whose MACD crosses
bullishly, whose close sits below the lower band and whose divergence is
bullish, `generate_signal` reports STRONG BUY with confidence 20+25+15+20 = 80
and the four reasons in append order. -/
theorem generate_signal_strongbuy (f : Frame) (mL sL mP sP cp : ℚ) (lov : ℝ)
    (hi : Option ℝ) (bflag : Bool)
    (hrsi : ilocNeg 1 f.rsi = .ok (some 25))
    (hm1 : ilocNeg 1 f.macd = .ok mL) (hs1 : ilocNeg 1 f.macd_signal = .ok sL)
    (hcross1 : sL < mL)
    (hm2 : ilocNeg 2 f.macd = .ok mP) (hs2 : ilocNeg 2 f.macd_signal = .ok sP)
    (hcross2 : mP ≤ sP)
    (hcp : ilocNeg 1 f.close = .ok cp)
    (hlo : ilocNeg 1 f.bb_lower = .ok (some lov)) (hhi : ilocNeg 1 f.bb_upper = .ok hi)
    (hbelow : (cp : ℝ) < lov)
    (hdiv : detect_divergence f.close f.rsi = .ok (true, bflag)) :
    generate_signal f = .ok ⟨"STRONG BUY 🟢", 80,
      ["RSI oversold (買いシグナル)", "MACD bullish crossover (買いシグナル)",
       "Price below lower Bollinger Band (買いシグナル)",
       "Bullish divergence detected (買いシグナル)"]⟩ := by
  have hmacd : macdCrossStep f mL sL = .ok (25, ["MACD bullish crossover (買いシグナル)"]) := by
    unfold macdCrossStep
    rw [if_pos hcross1, hm2, hs2]
    exact congrArg Except.ok (if_pos hcross2)
  have hbbC : bbContribution cp (some lov) hi =
      (15, ["Price below lower Bollinger Band (買いシグナル)"]) := by
    unfold bbContribution
    exact if_pos hbelow
  unfold generate_signal scoreReasons
  rw [hrsi, hm1, hs1]
  dsimp only
  rw [hmacd]
  dsimp only
  rw [hcp, hlo, hhi]
  dsimp only
  rw [hdiv]
  dsimp only
  rw [rsiContribution_oversold, hbbC]
  with_unfolding_all rfl

/-- Witness for C1: a concrete 20-row frame realising all four bullish
conditions at once. -/
theorem generate_signal_strongbuy_witness :
    generate_signal
        ⟨[200] ++ List.replicate 18 (0 : ℚ) ++ [100],
         [some 10] ++ List.replicate 18 (none : Option ℚ) ++ [some 25],
         List.replicate 18 (0 : ℚ) ++ [0, 1],
         List.replicate 18 (0 : ℚ) ++ [0, 0],
         List.replicate 19 (none : Option ℝ) ++ [some 300],
         List.replicate 19 (none : Option ℝ) ++ [some 150]⟩ =
      .ok ⟨"STRONG BUY 🟢", 80,
        ["RSI oversold (買いシグナル)", "MACD bullish crossover (買いシグナル)",
         "Price below lower Bollinger Band (買いシグナル)",
         "Bullish divergence detected (買いシグナル)"]⟩ :=
  generate_signal_strongbuy _ 1 0 0 0 100 150 (some 300) false
    (by with_unfolding_all rfl) (by with_unfolding_all rfl) (by with_unfolding_all rfl)
    (by norm_num) (by with_unfolding_all rfl) (by with_unfolding_all rfl) (by norm_num)
    (by with_unfolding_all rfl) (by with_unfolding_all rfl) (by with_unfolding_all rfl)
    (by norm_num) (by with_unfolding_all rfl)

/-- Witness for C10 at a flat 20-row frame where no rule fires: HOLD with
confidence 0. -/
theorem confidence_le_80_witness :
    ∃ c sl,
      scoreReasons
          ⟨List.replicate 20 (1 : ℚ), List.replicate 20 (none : Option ℚ),
           List.replicate 20 (0 : ℚ), List.replicate 20 (0 : ℚ),
           List.replicate 20 (none : Option ℝ), List.replicate 20 (none : Option ℝ)⟩ =
        .ok (c, sl) ∧
      (⟨"HOLD ⚪", 0, []⟩ : Signal).confidence = c.natAbs ∧
        -80 ≤ c ∧ c ≤ 80 ∧ (5 : ℤ) ∣ c ∧ (⟨"HOLD ⚪", 0, []⟩ : Signal).confidence ≤ 80 :=
  confidence_le_80
    ⟨List.replicate 20 (1 : ℚ), List.replicate 20 (none : Option ℚ),
     List.replicate 20 (0 : ℚ), List.replicate 20 (0 : ℚ),
     List.replicate 20 (none : Option ℝ), List.replicate 20 (none : Option ℝ)⟩
    ⟨"HOLD ⚪", 0, []⟩ (by with_unfolding_all rfl)

/-- C3: on a series shorter than the 20-candle Bollinger period, every
Bollinger value (upper, middle, lower) is undefined at every index, the
enriched frame's latest band entries are NaN, and the aggregator's Bollinger
rule does not fire on NaN bands (nor does the RSI rule on a NaN RSI) —
undefined inputs are skipped, not treated as zero. -/
theorem bollinger_skip_short_series (closes : List ℚ) (h : closes.length < 20) :
    (∀ i : ℕ, bbUpperAt closes 20 2 i = none ∧ rolling_mean closes 20 i = none ∧
        bbLowerAt closes 20 2 i = none) ∧
      (0 < closes.length →
        ilocNeg 1 (enrich closes).bb_lower = .ok none ∧
          ilocNeg 1 (enrich closes).bb_upper = .ok none) ∧
        (∀ c : ℚ, bbContribution c none none = (0, [])) ∧
          rsiContribution none = (0, []) := by
  have hmean : ∀ i, rolling_mean closes 20 i = none := fun i =>
    rolling_mean_none closes 20 i (by omega)
  have hvar : ∀ i, rolling_var closes 20 i = none := fun i => by
    unfold rolling_var
    rw [windowAt_none closes 20 i (by omega)]
    rfl
  have hup : ∀ i, bbUpperAt closes 20 2 i = none := fun i => by
    unfold bbUpperAt
    rw [hmean i, hvar i]
  have hlo : ∀ i, bbLowerAt closes 20 2 i = none := fun i => by
    unfold bbLowerAt
    rw [hmean i, hvar i]
  refine ⟨fun i => ⟨hup i, hmean i, hlo i⟩, fun hpos => ⟨?_, ?_⟩, fun c => rfl, rfl⟩
  · show ilocNeg 1 (tabulate closes.length (bbLowerAt closes 20 2)) = .ok none
    rw [ilocNeg_tabulate 1 closes.length (bbLowerAt closes 20 2) (by omega) (by omega), hlo]
  · show ilocNeg 1 (tabulate closes.length (bbUpperAt closes 20 2)) = .ok none
    rw [ilocNeg_tabulate 1 closes.length (bbUpperAt closes 20 2) (by omega) (by omega), hup]

/-- Witness for C3 on a concrete 10-candle series with the default 20-period
bands. -/
theorem bollinger_skip_short_series_witness :
    (bbUpperAt [1, 2, 3, 4, 5, 6, 7, 8, 9, 10] 20 2 9 = none ∧
      rolling_mean [1, 2, 3, 4, 5, 6, 7, 8, 9, 10] 20 9 = none ∧
        bbLowerAt [1, 2, 3, 4, 5, 6, 7, 8, 9, 10] 20 2 9 = none) ∧
      (ilocNeg 1 (enrich [1, 2, 3, 4, 5, 6, 7, 8, 9, 10]).bb_lower = .ok none ∧
        ilocNeg 1 (enrich [1, 2, 3, 4, 5, 6, 7, 8, 9, 10]).bb_upper = .ok none) ∧
        bbContribution 100 none none = (0, []) :=
  ⟨(bollinger_skip_short_series [1, 2, 3, 4, 5, 6, 7, 8, 9, 10] (by decide)).1 9,
   (bollinger_skip_short_series [1, 2, 3, 4, 5, 6, 7, 8, 9, 10] (by decide)).2.1 (by decide),
   (bollinger_skip_short_series [1, 2, 3, 4, 5, 6, 7, 8, 9, 10] (by decide)).2.2.1 100⟩

/-! Helper lemmas for `find_support_resistance`. -/

theorem sortedAsc_sorted (xs : List ℚ) : (sortedAsc xs).Pairwise (fun a b => a ≤ b) :=
  List.sorted_insertionSort (fun a b => a ≤ b) xs

theorem sortedAsc_mem (xs : List ℚ) (a : ℚ) : a ∈ sortedAsc xs ↔ a ∈ xs :=
  List.mem_insertionSort (fun a b => a ≤ b)

theorem sortedAsc_nodup (xs : List ℚ) (h : xs.Nodup) : (sortedAsc xs).Nodup :=
  (List.perm_insertionSort (fun a b => a ≤ b) xs).nodup_iff.mpr h

theorem take3_props {r : ℚ → ℚ → Prop} (M : List ℚ) (hs : M.Pairwise r) :
    (M.take 3).length ≤ 3 ∧ List.Pairwise r (M.take 3) ∧
      (∀ v ∈ M.take 3, v ∈ M) ∧
        ∀ v ∈ M, v ∉ M.take 3 → ∀ u ∈ M.take 3, r u v := by
  refine ⟨?_, List.Pairwise.sublist (List.take_sublist 3 M) hs,
    fun v hv => (List.take_sublist 3 M).subset hv, ?_⟩
  · rw [List.length_take]
    exact min_le_left _ _
  · intro v hv hnv u hu
    have hsplit := List.take_append_drop 3 M
    rw [← hsplit] at hs
    rw [List.pairwise_append] at hs
    obtain ⟨_, _, hcross⟩ := hs
    have hvd : v ∈ M.drop 3 := by
      rw [← hsplit] at hv
      rcases List.mem_append.mp hv with h | h
      · exact absurd h hnv
      · exact h
    exact hcross u hu v hvd

theorem supportCandidates_mem (lows : List ℚ) (w : ℕ) (v : ℚ) :
    v ∈ supportCandidates lows w ↔
      ∃ i, w ≤ i ∧ i < lows.length - w ∧ lows[i]? = some v ∧
        ((lows.drop (i - w)).take (w + w)).min? = some v := by
  unfold supportCandidates
  rw [List.mem_filterMap]
  constructor
  · rintro ⟨i, hi, hf⟩
    rw [List.mem_range'] at hi
    obtain ⟨j, hj, rfl⟩ := hi
    cases hg : lows[w + 1 * j]? with
    | none => rw [hg] at hf; exact absurd hf (by simp)
    | some x =>
      rw [hg] at hf
      dsimp only at hf
      split_ifs at hf with hmin
      · have hxv := Option.some.inj hf
        rw [hxv] at hg hmin
        exact ⟨w + 1 * j, by omega, by omega, hg, hmin⟩
  · rintro ⟨i, hwi, hlt, hg, hmin⟩
    refine ⟨i, ?_, ?_⟩
    · rw [List.mem_range']
      exact ⟨i - w, by omega, by omega⟩
    · rw [hg]
      dsimp only
      rw [if_pos hmin]

theorem resistanceCandidates_mem (highs : List ℚ) (w : ℕ) (v : ℚ) :
    v ∈ resistanceCandidates highs w ↔
      ∃ i, w ≤ i ∧ i < highs.length - w ∧ highs[i]? = some v ∧
        ((highs.drop (i - w)).take (w + w)).max? = some v := by
  unfold resistanceCandidates
  rw [List.mem_filterMap]
  constructor
  · rintro ⟨i, hi, hf⟩
    rw [List.mem_range'] at hi
    obtain ⟨j, hj, rfl⟩ := hi
    cases hg : highs[w + 1 * j]? with
    | none => rw [hg] at hf; exact absurd hf (by simp)
    | some x =>
      rw [hg] at hf
      dsimp only at hf
      split_ifs at hf with hmax
      · have hxv := Option.some.inj hf
        rw [hxv] at hg hmax
        exact ⟨w + 1 * j, by omega, by omega, hg, hmax⟩
  · rintro ⟨i, hwi, hlt, hg, hmax⟩
    refine ⟨i, ?_, ?_⟩
    · rw [List.mem_range']
      exact ⟨i - w, by omega, by omega⟩
    · rw [hg]
      dsimp only
      rw [if_pos hmax]

/-- C6: the support candidates are exactly the lows equal to the minimum of
their half-open `[i-w, i+w)` slice for `i` in `[w, n-w)` (resistance dually
with the maximum); after value-deduplication the returned support list is the
at-most-3 highest candidates in descending order and the returned resistance
list the at-most-3 lowest candidates in ascending order. -/
theorem find_support_resistance_spec (highs lows : List ℚ) (w : ℕ) :
    (∀ v, v ∈ supportCandidates lows w ↔
        ∃ i, w ≤ i ∧ i < lows.length - w ∧ lows[i]? = some v ∧
          ((lows.drop (i - w)).take (w + w)).min? = some v) ∧
      (∀ v, v ∈ resistanceCandidates highs w ↔
          ∃ i, w ≤ i ∧ i < highs.length - w ∧ highs[i]? = some v ∧
            ((highs.drop (i - w)).take (w + w)).max? = some v) ∧
        (find_support_resistance highs lows w).1.length ≤ 3 ∧
          (find_support_resistance highs lows w).2.length ≤ 3 ∧
            List.Pairwise (fun a b => b ≤ a) (find_support_resistance highs lows w).1 ∧
              List.Pairwise (fun a b => a ≤ b) (find_support_resistance highs lows w).2 ∧
                (find_support_resistance highs lows w).1.Nodup ∧
                  (find_support_resistance highs lows w).2.Nodup ∧
                    (∀ v ∈ (find_support_resistance highs lows w).1,
                        v ∈ supportCandidates lows w) ∧
                      (∀ v ∈ (find_support_resistance highs lows w).2,
                          v ∈ resistanceCandidates highs w) ∧
                        (∀ v ∈ supportCandidates lows w,
                            v ∉ (find_support_resistance highs lows w).1 →
                              ∀ u ∈ (find_support_resistance highs lows w).1, v ≤ u) ∧
                          ∀ v ∈ resistanceCandidates highs w,
                            v ∉ (find_support_resistance highs lows w).2 →
                              ∀ u ∈ (find_support_resistance highs lows w).2, u ≤ v := by
  have hsup : (find_support_resistance highs lows w).1 =
      ((sortedAsc (supportCandidates lows w).dedup).reverse).take 3 := rfl
  have hres : (find_support_resistance highs lows w).2 =
      (sortedAsc (resistanceCandidates highs w).dedup).take 3 := rfl
  have hL1sorted : ((sortedAsc (supportCandidates lows w).dedup).reverse).Pairwise
      (fun a b => b ≤ a) :=
    List.pairwise_reverse.mpr (sortedAsc_sorted (supportCandidates lows w).dedup)
  have hL2sorted := sortedAsc_sorted (resistanceCandidates highs w).dedup
  have hL1mem : ∀ a, a ∈ (sortedAsc (supportCandidates lows w).dedup).reverse ↔
      a ∈ supportCandidates lows w := fun a => by
    rw [List.mem_reverse, sortedAsc_mem, List.mem_dedup]
  have hL2mem : ∀ a, a ∈ sortedAsc (resistanceCandidates highs w).dedup ↔
      a ∈ resistanceCandidates highs w := fun a => by
    rw [sortedAsc_mem, List.mem_dedup]
  have hL1nodup : ((sortedAsc (supportCandidates lows w).dedup).reverse).Nodup :=
    List.nodup_reverse.mpr (sortedAsc_nodup _ (List.nodup_dedup _))
  have hL2nodup : (sortedAsc (resistanceCandidates highs w).dedup).Nodup :=
    sortedAsc_nodup _ (List.nodup_dedup _)
  obtain ⟨hlen1, hsort1, hmem1, hmax1⟩ := take3_props _ hL1sorted
  obtain ⟨hlen2, hsort2, hmem2, hmin2⟩ := take3_props _ hL2sorted
  rw [hsup, hres]
  refine ⟨supportCandidates_mem lows w, resistanceCandidates_mem highs w,
    hlen1, hlen2, hsort1, hsort2,
    List.Nodup.sublist (List.take_sublist 3 _) hL1nodup,
    List.Nodup.sublist (List.take_sublist 3 _) hL2nodup,
    fun v hv => (hL1mem v).mp (hmem1 v hv),
    fun v hv => (hL2mem v).mp (hmem2 v hv),
    fun v hv hnv u hu => hmax1 v ((hL1mem v).mpr hv) hnv u hu,
    fun v hv hnv u hu => hmin2 v ((hL2mem v).mpr hv) hnv u hu⟩

/-- Witness for C6 on a small concrete series with window 1: supports
`[2, 1]` descending, resistances `[2, 3, 4]` ascending. -/
theorem find_support_resistance_spec_witness :
    (find_support_resistance [1, 2, 3, 4, 5] [5, 1, 7, 2, 9] 1).1.length ≤ 3 ∧
      (find_support_resistance [1, 2, 3, 4, 5] [5, 1, 7, 2, 9] 1).2.length ≤ 3 ∧
        (find_support_resistance [1, 2, 3, 4, 5] [5, 1, 7, 2, 9] 1).1 = [2, 1] ∧
          (find_support_resistance [1, 2, 3, 4, 5] [5, 1, 7, 2, 9] 1).2 = [2, 3, 4] :=
  ⟨(find_support_resistance_spec [1, 2, 3, 4, 5] [5, 1, 7, 2, 9] 1).2.2.1,
   (find_support_resistance_spec [1, 2, 3, 4, 5] [5, 1, 7, 2, 9] 1).2.2.2.1,
   by with_unfolding_all rfl, by with_unfolding_all rfl⟩

end CryptoAnalyzer
